import Mathlib

/-!
Shallow embedding of the interactive-surface compositor of the gio
repository: the ripple animation `drawInk` and the layered button
compositor `ButtonLayoutStyle.Layout` from src/widget/material/button.go,
and the vertex stage contract from src/gpu/shaders/blit.vert.

Timestamps are modelled as exact rationals (seconds); the Go zero
`time.Time` is modelled as the rational `0`, so `IsZero` becomes `= 0`.
Go float32 arithmetic is modelled as exact rational arithmetic; the one
irrational constant the code uses, `float32(math.Sqrt(2))`, is embedded
as the exact rational value of that float32.
-/

/-- Timestamps in seconds; the Go zero time is `0`. -/
abbrev Time := ℚ

/-- An RGBA color with byte channels, as `color.RGBA` in Go. -/
structure RGBA where
  r : ℕ
  g : ℕ
  b : ℕ
  a : ℕ
deriving DecidableEq, Repr

/-- A press event, as `widget.Press` in Go: position, start time, and the
release time.  In Go the release field is a `time.Time` whose zero value
means "not yet released"; we model it as an `Option`. -/
structure Press where
  position : ℚ × ℚ
  start : Time
  endT : Option Time
deriving DecidableEq, Repr

/-- The minimum constraints of a layout context (`gtx.Constraints.Min`,
an `image.Point` with integer coordinates). -/
structure Constraints where
  minX : ℤ
  minY : ℤ
deriving DecidableEq, Repr

/-- One directive of the operation stream: the draw, clip, transform and
state-scoping operations that `drawInk` and the button layers append to
`gtx.Ops`. -/
inductive Op where
  /-- `op.Push(gtx.Ops)`: save the transform/clip/color state. -/
  | push
  /-- the matching `.Pop()`: restore the saved state. -/
  | pop
  /-- `paint.ColorOp`: set the current color. -/
  | color (c : RGBA)
  /-- `op.TransformOp{}.Offset(..)`: translate by the given vector. -/
  | transform (v : ℚ × ℚ)
  /-- `clip.Rect{..}.Op(..).Add(..)`: clip to a rounded rect of the given
  width, height and uniform corner radius. -/
  | clipRR (w h rr : ℚ)
  /-- `paint.PaintOp`: fill the given rectangle with the current color. -/
  | paint (w h : ℚ)
  /-- `op.InvalidateOp{}`: request another frame. -/
  | invalidate
  /-- the background fill emitted by `fill(gtx, background)`. -/
  | fillRect (c : RGBA)
  /-- the input registration of `widget.Clickable.Layout`: hit-test only,
  contributes no pixels. -/
  | inputRegister
deriving DecidableEq, Repr

/-- The ripple duration: `const duration = 0.4` seconds in `drawInk`. -/
def duration : ℚ := 2/5

/-- The exact rational value of `float32(math.Sqrt(2))`. -/
def sqrt2 : ℚ := 11863283 / 8388608

/-- Go `byte(x)` conversion of a nonnegative float: truncate toward zero
and keep the low byte. -/
def ratToByte (q : ℚ) : ℕ := (⌊q⌋).toNat % 256

/-- The normalized ripple age `t = (now - c.Start).Seconds() / duration`
computed at the top of `drawInk`. -/
def inkT (now : Time) (c : Press) : ℚ := (now - c.start) / duration

/-- The early-return condition of `drawInk`: `t > 1.0` together with
`c.Start.IsZero() || !c.End.IsZero()` means the ripple is too old. -/
def expired (now : Time) (c : Press) : Bool :=
  decide (1 < inkT now c) && (decide (c.start = 0) || c.endT.isSome)

/-- The value of `t` after the `if t > 1.0 { ... t = 1.0 }` clamp in
`drawInk` (on the path that does not return early). -/
def inkTClamped (now : Time) (c : Press) : ℚ :=
  if 1 < inkT now c then 1 else inkT now c

/-- The ping-pong fold of `drawInk`: `t2 := t; if t2 > 1.0 { t2 = 2.0 - t2 }`. -/
def inkT2 (now : Time) (c : Press) : ℚ :=
  if 1 < inkTClamped now c then 2 - inkTClamped now c else inkTClamped now c

/-- The smoothstep easing of `drawInk`: `bezierBlend := t2 * t2 * (3.0 - 2.0*t2)`. -/
def bezierBlend (t2 : ℚ) : ℚ := t2 * t2 * (3 - 2 * t2)

/-- The easing weight `drawInk` actually uses at time `now`. -/
def inkBlend (now : Time) (c : Press) : ℚ := bezierBlend (inkT2 now c)

/-- The ripple size of `drawInk`: start from the larger coordinate of
`gtx.Constraints.Min`, multiply by `2 * float32(math.Sqrt(2))`, then by
`bezierBlend`. -/
def inkSize (cons : Constraints) (now : Time) (c : Press) : ℚ :=
  (if (cons.minX : ℚ) < (cons.minY : ℚ) then (cons.minY : ℚ) else (cons.minX : ℚ))
    * (2 * sqrt2) * inkBlend now c

/-- The ripple alpha of `drawInk`: `alpha := 0.7 * bezierBlend`. -/
def inkAlpha (now : Time) (c : Press) : ℚ := 7/10 * inkBlend now c

/-- The alpha byte of the ripple color: `ba := byte(alpha * 0xff)`. -/
def inkBa (now : Time) (c : Press) : ℕ := ratToByte (inkAlpha now c * 255)

/-- The R/G/B byte of the ripple color: `bc := byte(alpha * col * 0xff)`
with `const col = 0.8`. -/
def inkBc (now : Time) (c : Press) : ℕ := ratToByte (inkAlpha now c * (8/10) * 255)

/-- The operations `drawInk` emits when the ripple is not expired:
push, color, the combined offset `c.Position + (-rr, -rr)`, the rounded
clip of side `size` with radius `rr = size * 0.5`, the paint, the
invalidate, and the deferred pop. -/
def inkOps (cons : Constraints) (now : Time) (c : Press) : List Op :=
  let size := inkSize cons now c
  let rr := size * (1/2)
  [Op.push,
   Op.color ⟨inkBc now c, inkBc now c, inkBc now c, inkBa now c⟩,
   Op.transform (c.position.1 - rr, c.position.2 - rr),
   Op.clipRR size size rr,
   Op.paint size size,
   Op.invalidate,
   Op.pop]

/-- The `drawInk` function of src/widget/material/button.go as a pure
map from constraints, current time and press event to the list of
operations appended to `gtx.Ops`. -/
def drawInk (cons : Constraints) (now : Time) (c : Press) : List Op :=
  if expired now c then [] else inkOps cons now c

/-- Widget dimensions, the size a child consumed. -/
abbrev Dims := ℚ × ℚ

/-- An inset (padding), as `layout.Inset` in Go. -/
structure Inset where
  top : ℚ
  bottom : ℚ
  left : ℚ
  right : ℚ
deriving DecidableEq, Repr

/-- The configuration of `ButtonLayoutStyle`: background color, the
corner radius already resolved to pixels (`gtx.Px(b.CornerRadius)`), and
the content inset. -/
structure ButtonLayoutStyle where
  background : RGBA
  cornerRadiusPx : ℤ
  inset : Inset

/-- Modelled from the spec: `mulAlpha` (not under src/) desaturates a
color for the non-interactive preview context by scaling its alpha by
the fixed factor 150/255. -/
def mulAlpha (c : RGBA) (f : ℕ) : RGBA :=
  { c with a := c.a * f / 255 }

/-- Modelled from the spec: `fill` (not under src/) fills the clipped
background region with the given color. -/
def fill (c : RGBA) : List Op := [Op.fillRect c]

/-- Modelled from the spec: `layout.Inset.Layout` (not under src/)
applies the configured padding before invoking the child widget, with
the translation scoped, and reports the child size grown by the
insets. -/
def insetLayout (i : Inset) (cons : Constraints) (child : Constraints → List Op × Dims) :
    List Op × Dims :=
  let r := child cons
  (Op.push :: Op.transform (i.left, i.top) :: r.1 ++ [Op.pop],
   (r.2.1 + i.left + i.right, r.2.2 + i.top + i.bottom))

/-- Modelled from the spec: `layout.Center.Layout` (not under src/) lays
the child out at its natural size (minimum constraint cleared) and
translates it, scoped, by half the leftover space of the surrounding
minimum constraint. -/
def centerLayout (cons : Constraints) (child : Constraints → List Op × Dims) :
    List Op × Dims :=
  let r := child { cons with minX := 0, minY := 0 }
  (Op.push ::
     Op.transform (((cons.minX : ℚ) - r.2.1) / 2, ((cons.minY : ℚ) - r.2.2) / 2) ::
     r.1 ++ [Op.pop],
   ((cons.minX : ℚ), (cons.minY : ℚ)))

/-- Modelled from the spec: `widget.Clickable.Layout` (not under src/)
registers the hit-test input area over the minimum constraints; it
contributes no pixels. -/
def clickableLayout (cons : Constraints) : List Op × Dims :=
  ([Op.inputRegister], ((cons.minX : ℚ), (cons.minY : ℚ)))

/-- Modelled from the spec: `layout.Stack.Layout` (not under src/)
replays the recorded child operations strictly in the order the children
were given (back to front), each child scoped by a push/pop pair. -/
def stackLayout (children : List (List Op)) : List Op :=
  children.flatMap (fun ops => Op.push :: ops ++ [Op.pop])

/-- The background (Expanded) closure of `ButtonLayoutStyle.Layout`:
rounded-rect clip over the minimum constraints, background fill
(desaturated when `gtx.Queue == nil`), then one `drawInk` per history
entry. -/
def backgroundLayer (b : ButtonLayoutStyle) (cons : Constraints) (queueNil : Bool)
    (now : Time) (history : List Press) : List Op :=
  let rr : ℚ := (b.cornerRadiusPx : ℚ)
  let background := if queueNil then mulAlpha b.background 150 else b.background
  Op.clipRR (cons.minX : ℚ) (cons.minY : ℚ) rr ::
    fill background ++ history.flatMap (fun c => drawInk cons now c)

/-- The content (Stacked) closure of `ButtonLayoutStyle.Layout`: restore
the minimum constraint saved at entry (`gtx.Constraints.Min = min`),
then center, then inset, then invoke the supplied content widget. -/
def contentLayer (b : ButtonLayoutStyle) (savedMin : ℤ × ℤ) (stackCons : Constraints)
    (w : Constraints → List Op × Dims) : List Op :=
  (centerLayout { stackCons with minX := savedMin.1, minY := savedMin.2 }
    (fun c => insetLayout b.inset c w)).1

/-- The `ButtonLayoutStyle.Layout` function of
src/widget/material/button.go: save `min := gtx.Constraints.Min`, then
stack the background closure, the content closure (whose stacked
context has its minimum constraint cleared), and the clickable's
hit-test layer, in that order. -/
def buttonLayout (b : ButtonLayoutStyle) (cons : Constraints) (queueNil : Bool)
    (now : Time) (history : List Press) (w : Constraints → List Op × Dims) : List Op :=
  let savedMin := (cons.minX, cons.minY)
  stackLayout
    [backgroundLayer b cons queueNil now history,
     contentLayer b savedMin { cons with minX := 0, minY := 0 } w,
     (clickableLayout cons).1]

/-- Whether an operation contributes pixels to the frame. -/
def pixelOp : Op → Bool
  | Op.paint _ _ => true
  | Op.fillRect _ => true
  | _ => false

/-- The scoped graphics state: current accumulated translation, clip
stack and current color. -/
structure GState where
  translation : ℚ × ℚ
  clips : List (ℚ × ℚ × ℚ)
  colorSet : Option RGBA
deriving DecidableEq, Repr

/-- One step of the operation-stream semantics: `Op.push` saves the
current graphics state, `Op.pop` restores the most recently saved one,
and transform/clip/color mutate the current state; draw operations do
not change state. -/
def applyOp (st : GState × List GState) (op : Op) : GState × List GState :=
  match op with
  | Op.push => (st.1, st.1 :: st.2)
  | Op.pop =>
      match st.2 with
      | [] => st
      | t :: r => (t, r)
  | Op.transform v =>
      ({ st.1 with translation := (st.1.translation.1 + v.1, st.1.translation.2 + v.2) }, st.2)
  | Op.clipRR w h rr => ({ st.1 with clips := (w, h, rr) :: st.1.clips }, st.2)
  | Op.color c => ({ st.1 with colorSet := some c }, st.2)
  | _ => st

/-- Run a list of operations over the graphics state. -/
def execOps (ops : List Op) (st : GState × List GState) : GState × List GState :=
  ops.foldl applyOp st

/-- The uniform block of src/gpu/shaders/blit.vert, fields in
declaration order: `float z; vec2 scale; vec2 offset; vec2 uvScale;
vec2 uvOffset;`. -/
structure Block where
  z : ℚ
  scale : ℚ × ℚ
  offset : ℚ × ℚ
  uvScale : ℚ × ℚ
  uvOffset : ℚ × ℚ
deriving DecidableEq, Repr

/-- Destructure the uniform buffer words in the declared field order:
depth first, then scale.xy, offset.xy, uvScale.xy, uvOffset.xy. -/
def Block.fromWords : List ℚ → Option Block
  | [z, sx, sy, ox, oy, usx, usy, uox, uoy] =>
      some ⟨z, (sx, sy), (ox, oy), (usx, usy), (uox, uoy)⟩
  | _ => none

/-- The outputs of the vertex stage: `gl_Position` and `vUV`. -/
structure VertOut where
  glPosition : ℚ × ℚ × ℚ × ℚ
  vUV : ℚ × ℚ
deriving DecidableEq, Repr

/-- The `main` of src/gpu/shaders/blit.vert: `p = pos; p *= scale;
p += offset; gl_Position = vec4(p, z, 1); vUV = uv*uvScale +
uvOffset;`. -/
def blitVertMain (blk : Block) (pos uv : ℚ × ℚ) : VertOut :=
  let p := pos
  let p := (p.1 * blk.scale.1, p.2 * blk.scale.2)
  let p := (p.1 + blk.offset.1, p.2 + blk.offset.2)
  { glPosition := (p.1, p.2, blk.z, 1),
    vUV := (uv.1 * blk.uvScale.1 + blk.uvOffset.1, uv.2 * blk.uvScale.2 + blk.uvOffset.2) }

/-- C4: the easing `bezierBlend(t2) = t2^2 * (3 - 2*t2)` of `drawInk`
satisfies `bezierBlend 0 = 0`, `bezierBlend 1 = 1`, and is monotonically
non-decreasing on `(0, 1]`. -/
theorem bezierBlend_smoothstep :
    bezierBlend 0 = 0 ∧ bezierBlend 1 = 1 ∧
      ∀ a b : ℚ, 0 < a → a ≤ b → b ≤ 1 → bezierBlend a ≤ bezierBlend b := by
  refine ⟨by norm_num [bezierBlend], by norm_num [bezierBlend], ?_⟩
  intro a b ha hab hb1
  unfold bezierBlend
  nlinarith [mul_nonneg (sub_nonneg.mpr hab) (sub_nonneg.mpr hb1),
    mul_pos ha (lt_of_lt_of_le ha hab), sq_nonneg (a + b - 1), sq_nonneg (a - b)]

/-- Witness for C4 at `a = 1/2`, `b = 1`. -/
theorem bezierBlend_smoothstep_witness :
    bezierBlend (1/2) ≤ bezierBlend 1 :=
  bezierBlend_smoothstep.2.2 (1/2) 1 (by norm_num) (by norm_num) le_rfl

/-- C7: `drawInk` emits `InvalidateOp` if and only if the evaluated
press is not expired. -/
theorem drawInk_invalidate_iff (cons : Constraints) (now : Time) (c : Press) :
    Op.invalidate ∈ drawInk cons now c ↔ expired now c = false := by
  by_cases h : expired now c
  · simp [drawInk, h]
  · simp [drawInk, h, inkOps]

/-- C9: whenever `drawInk` reaches the easing computation (the press is
not expired), `t` has already been clamped to at most 1, so the
ping-pong fold `t2 = 2 - t2` is not taken: `t2` equals the clamped `t`
and `bezierBlend` is computed from it. -/
theorem inkFold_unreachable (cons : Constraints) (now : Time) (c : Press)
    (h : expired now c = false) :
    inkTClamped now c ≤ 1 ∧ inkT2 now c = inkTClamped now c ∧
      inkBlend now c = bezierBlend (inkTClamped now c) ∧
      drawInk cons now c = inkOps cons now c := by
  have hcl : inkTClamped now c ≤ 1 := by
    unfold inkTClamped
    split_ifs with h1
    · exact le_refl 1
    · exact not_lt.mp h1
  have ht2 : inkT2 now c = inkTClamped now c := by
    unfold inkT2
    exact if_neg (not_lt.mpr hcl)
  refine ⟨hcl, ht2, ?_, by simp [drawInk, h]⟩
  unfold inkBlend
  rw [ht2]

/-- Witness for C9 at a concrete unexpired press. -/
theorem inkFold_unreachable_witness :
    inkT2 (6/5) ⟨(0, 0), 1, none⟩ = inkTClamped (6/5) ⟨(0, 0), 1, none⟩ :=
  (inkFold_unreachable ⟨1, 1⟩ (6/5) ⟨(0, 0), 1, none⟩
    (by norm_num [expired, inkT, duration])).2.1

/-- C10: a press whose start is the zero timestamp is treated as
expired by `drawInk` whenever `t > 1`, even when its end is unset. -/
theorem drawInk_zero_start (cons : Constraints) (now : Time) (c : Press)
    (h0 : c.start = 0) (ht : 1 < inkT now c) :
    expired now c = true ∧ drawInk cons now c = [] := by
  have hexp : expired now c = true := by simp [expired, h0, ht]
  exact ⟨hexp, by simp [drawInk, hexp]⟩

/-- Witness for C10: a zero-start held press at `now = 1` (so `t = 2.5`)
draws nothing. -/
theorem drawInk_zero_start_witness :
    drawInk ⟨1, 1⟩ 1 ⟨(0, 0), 0, none⟩ = [] :=
  (drawInk_zero_start ⟨1, 1⟩ 1 ⟨(0, 0), 0, none⟩ rfl
    (by norm_num [inkT, duration])).2

/-- C2: for a released press (end timestamp set), `drawInk` emits
nothing when `t = (now - start)/duration` exceeds 1, and emits the
ripple operations when `t ≤ 1`. -/
theorem drawInk_released (cons : Constraints) (now : Time) (c : Press) (e : Time)
    (h : c.endT = some e) :
    (1 < inkT now c → drawInk cons now c = []) ∧
      (inkT now c ≤ 1 → drawInk cons now c = inkOps cons now c) := by
  constructor
  · intro ht
    have hexp : expired now c = true := by simp [expired, ht, h]
    simp [drawInk, hexp]
  · intro ht
    have h1 : ¬ (1 < inkT now c) := not_lt.mpr ht
    have hexp : expired now c = false := by simp [expired, h1]
    simp [drawInk, hexp]

/-- Witness for C2: a press at `start = 1` released at `7/5`, evaluated
at `now = start + duration * 1.01` (so `t = 1.01`), draws nothing. -/
theorem drawInk_released_witness :
    drawInk ⟨2, 3⟩ (351/250) ⟨(0, 0), 1, some (7/5)⟩ = [] :=
  (drawInk_released ⟨2, 3⟩ (351/250) ⟨(0, 0), 1, some (7/5)⟩ (7/5) rfl).1
    (by norm_num [inkT, duration])

/-- C1 counterexample: a press whose end timestamp is unset but whose
start is the zero timestamp IS treated as expired: evaluated at
`now = start + 100`, `drawInk` emits nothing. -/
theorem drawInk_held_zero_start_cex :
    expired 100 ⟨(0, 0), 0, none⟩ = true ∧
      drawInk ⟨1, 1⟩ 100 ⟨(0, 0), 0, none⟩ = [] := by
  constructor
  · norm_num [expired, inkT, duration]
  · norm_num [drawInk, expired, inkT, duration]

/-- C1 (amended): a held press (end unset) with a nonzero start
timestamp never expires: at every `now ≥ start`, `drawInk` emits the
ripple operations, and whenever `t > 1` the clamp pins the easing at
`bezierBlend = 1` (full bloom). -/
theorem drawInk_held_never_expires (cons : Constraints) (now : Time) (c : Press)
    (h0 : c.start ≠ 0) (he : c.endT = none) (_hn : c.start ≤ now) :
    expired now c = false ∧ drawInk cons now c = inkOps cons now c ∧
      (1 < inkT now c → inkBlend now c = 1) := by
  have hexp : expired now c = false := by simp [expired, h0, he]
  refine ⟨hexp, by simp [drawInk, hexp], ?_⟩
  intro ht
  have hcl : inkTClamped now c = 1 := by simp [inkTClamped, ht]
  norm_num [inkBlend, inkT2, hcl, bezierBlend]

/-- Witness for C1 (amended): a press held since `start = 1`, evaluated
at `now = start + 100`, still has easing weight 1. -/
theorem drawInk_held_never_expires_witness :
    inkBlend 101 ⟨(0, 0), 1, none⟩ = 1 :=
  (drawInk_held_never_expires ⟨1, 1⟩ 101 ⟨(0, 0), 1, none⟩ (by norm_num) rfl
    (by norm_num)).2.2 (by norm_num [inkT, duration])

/-- C3: for every unexpired press, `drawInk` emits exactly the scoped
color/transform/clip/paint/invalidate sequence, where the size obeys
`2 * sqrt2 * max(minX, minY) * bezierBlend`, the alpha is
`0.7 * bezierBlend` with R/G/B bytes at `alpha * 0.8`, and the square of
side `size` is translated to the press position minus half the size in
each axis. -/
theorem drawInk_visual (cons : Constraints) (now : Time) (c : Press)
    (h : expired now c = false) :
    drawInk cons now c =
        [Op.push,
         Op.color ⟨inkBc now c, inkBc now c, inkBc now c, inkBa now c⟩,
         Op.transform (c.position.1 - inkSize cons now c * (1/2),
                       c.position.2 - inkSize cons now c * (1/2)),
         Op.clipRR (inkSize cons now c) (inkSize cons now c) (inkSize cons now c * (1/2)),
         Op.paint (inkSize cons now c) (inkSize cons now c),
         Op.invalidate,
         Op.pop] ∧
      inkSize cons now c =
        2 * sqrt2 * max (cons.minX : ℚ) (cons.minY : ℚ) * inkBlend now c ∧
      inkAlpha now c = 7/10 * inkBlend now c ∧
      inkBa now c = ratToByte (inkAlpha now c * 255) ∧
      inkBc now c = ratToByte (inkAlpha now c * (8/10) * 255) := by
  refine ⟨by simp [drawInk, h, inkOps], ?_, rfl, rfl, rfl⟩
  have hmax : (if (cons.minX : ℚ) < (cons.minY : ℚ) then (cons.minY : ℚ)
      else (cons.minX : ℚ)) = max (cons.minX : ℚ) (cons.minY : ℚ) := by
    rcases le_or_lt (cons.minY : ℚ) (cons.minX : ℚ) with h1 | h1
    · rw [if_neg (not_lt.mpr h1), max_eq_left h1]
    · rw [if_pos h1, max_eq_right h1.le]
  unfold inkSize
  rw [hmax]
  ring

/-- Witness for C3 at a concrete unexpired press. -/
theorem drawInk_visual_witness :
    inkAlpha (6/5) ⟨(0, 0), 1, none⟩ = 7/10 * inkBlend (6/5) ⟨(0, 0), 1, none⟩ :=
  (drawInk_visual ⟨2, 3⟩ (6/5) ⟨(0, 0), 1, none⟩
    (by norm_num [expired, inkT, duration])).2.2.1

/-- C6: the operations of one `drawInk` call leave the graphics state
exactly as they found it — the emitted stream is either empty or a
single push/pop-scoped block with no nested push or pop — so no
transform, clip or color set while drawing one ripple is observable
afterwards. -/
theorem drawInk_scoped (cons : Constraints) (now : Time) (c : Press) :
    (∀ st : GState × List GState, execOps (drawInk cons now c) st = st) ∧
      (drawInk cons now c = [] ∨
        ∃ mid, drawInk cons now c = Op.push :: mid ++ [Op.pop] ∧
          Op.push ∉ mid ∧ Op.pop ∉ mid) := by
  by_cases h : expired now c
  · refine ⟨fun st => by simp [drawInk, h, execOps], Or.inl (by simp [drawInk, h])⟩
  · constructor
    · intro st
      obtain ⟨s, stk⟩ := st
      simp [drawInk, h, inkOps, execOps, applyOp]
    · right
      refine ⟨[Op.color ⟨inkBc now c, inkBc now c, inkBc now c, inkBa now c⟩,
        Op.transform (c.position.1 - inkSize cons now c * (1/2),
                      c.position.2 - inkSize cons now c * (1/2)),
        Op.clipRR (inkSize cons now c) (inkSize cons now c) (inkSize cons now c * (1/2)),
        Op.paint (inkSize cons now c) (inkSize cons now c),
        Op.invalidate], ?_, ?_, ?_⟩
      · simp [drawInk, h, inkOps]
      · simp
      · simp

/-- C5: one frame of `ButtonLayoutStyle.Layout` emits exactly the three
scoped layers in back-to-front order — the background layer (rounded
clip, background fill, one `drawInk` per history entry), the content
layer (saved minimum constraint re-applied for centering, then the
inset translation before the supplied content widget), and the hit-test
layer, which contributes no pixels. -/
theorem buttonLayout_layers (b : ButtonLayoutStyle) (cons : Constraints) (queueNil : Bool)
    (now : Time) (history : List Press) (w : Constraints → List Op × Dims) :
    buttonLayout b cons queueNil now history w =
        (Op.push :: backgroundLayer b cons queueNil now history ++ [Op.pop]) ++
        (Op.push :: contentLayer b (cons.minX, cons.minY) ⟨0, 0⟩ w ++ [Op.pop]) ++
        (Op.push :: [Op.inputRegister] ++ [Op.pop]) ∧
      backgroundLayer b cons queueNil now history =
        Op.clipRR (cons.minX : ℚ) (cons.minY : ℚ) (b.cornerRadiusPx : ℚ) ::
          Op.fillRect (if queueNil then mulAlpha b.background 150 else b.background) ::
          history.flatMap (fun c => drawInk cons now c) ∧
      contentLayer b (cons.minX, cons.minY) ⟨0, 0⟩ w =
        Op.push ::
          Op.transform
            (((cons.minX : ℚ) - (insetLayout b.inset ⟨0, 0⟩ w).2.1) / 2,
             ((cons.minY : ℚ) - (insetLayout b.inset ⟨0, 0⟩ w).2.2) / 2) ::
          (insetLayout b.inset ⟨0, 0⟩ w).1 ++ [Op.pop] ∧
      insetLayout b.inset ⟨0, 0⟩ w =
        (Op.push :: Op.transform (b.inset.left, b.inset.top) :: (w ⟨0, 0⟩).1 ++ [Op.pop],
         ((w ⟨0, 0⟩).2.1 + b.inset.left + b.inset.right,
          (w ⟨0, 0⟩).2.2 + b.inset.top + b.inset.bottom)) ∧
      ∀ op ∈ (clickableLayout cons).1, pixelOp op = false := by
  refine ⟨?_, ?_, ?_, rfl, ?_⟩
  · simp [buttonLayout, stackLayout, clickableLayout]
  · simp [backgroundLayer, fill]
  · rfl
  · intro op hop
    simp [clickableLayout] at hop
    simp [hop, pixelOp]

/-- Witness for C5: the hit-test registration is not a pixel
operation. -/
theorem buttonLayout_layers_witness :
    pixelOp Op.inputRegister = false :=
  (buttonLayout_layers ⟨⟨0, 0, 0, 255⟩, 4, ⟨12, 12, 12, 12⟩⟩ ⟨5, 7⟩ false 0 []
    (fun _ => ([], (0, 0)))).2.2.2.2 Op.inputRegister (by simp [clickableLayout])

/-- C8: the vertex stage destructures the uniform words in the exact
declared order depth, scale.xy, offset.xy, uvScale.xy, uvOffset.xy, and
computes `gl_Position = (pos * scale + offset, z, 1)` and
`vUV = uv * uvScale + uvOffset`. -/
theorem blitVert_contract (z sx sy ox oy usx usy uox uoy px py ux uy : ℚ) :
    Block.fromWords [z, sx, sy, ox, oy, usx, usy, uox, uoy] =
        some ⟨z, (sx, sy), (ox, oy), (usx, usy), (uox, uoy)⟩ ∧
      blitVertMain ⟨z, (sx, sy), (ox, oy), (usx, usy), (uox, uoy)⟩ (px, py) (ux, uy) =
        ⟨(px * sx + ox, py * sy + oy, z, 1), (ux * usx + uox, uy * usy + uoy)⟩ :=
  ⟨rfl, rfl⟩
